import Mathlib

/-!
Verification of the yatp scenario parser (`src/parsers.ts`, `src/commands.ts`).

The TypeScript source is shallowly embedded here: JavaScript strings become
`List Char`, string indices become `Int` (JavaScript numbers; the source
stores `-1` from failed `search` calls in index variables), and every parser
function becomes a computable Lean function mirroring the source line by line.
JavaScript primitives (`slice`, `split`, `search`, `indexOf`, `match`,
`trim`, `trimEnd`, `replace`, `startsWith`, `includes`) are modelled by the
`js*` helpers below with the semantics of those methods at the argument
shapes the source uses.

The composer loop of `parseScenario` and the identifier scan loop of
`parseMultiLineTag` are modelled by explicit iteration counts: the composer
takes a `fuel` argument and yields `none` when the loop has not terminated
within `fuel` iterations, and the scan loop runs its exact JavaScript
iteration count, so both are faithful to the source's control flow while
remaining total Lean functions.  A JavaScript runtime exception (reading a
property of `undefined` in `parseQuotedString`) is modelled by an `Option`
result, `none` meaning the exception is thrown.
-/

namespace Yatp

/-- Shorthand turning a string literal into the `List Char` the embedding
computes with. -/
def str (s : String) : List Char := s.toList

/-- Clamp a JavaScript slice index into `[0, len]`: negative indices count
from the end, as in `String.prototype.slice`. -/
def jsIndex (len : Nat) (i : Int) : Nat :=
  (max 0 (min (if i < 0 then (len : Int) + i else i) (len : Int))).toNat

/-- JavaScript `text.slice(start, stop)`. -/
def jsSlice (l : List Char) (start stop : Int) : List Char :=
  (l.take (jsIndex l.length stop)).drop (jsIndex l.length start)

/-- JavaScript `text.slice(start)`. -/
def jsSliceFrom (l : List Char) (start : Int) : List Char :=
  l.drop (jsIndex l.length start)

/-- JavaScript `text.search(regex)` for a single-character-class regex:
index of the first character satisfying `p`, or `-1`. -/
def jsSearch (p : Char → Bool) (l : List Char) : Int :=
  match l.findIdx? p with
  | some i => (i : Int)
  | none => -1

/-- JavaScript `text.search(regex)` / `text.indexOf(pat)` for a literal
pattern: index of the first occurrence of `pat`, or `-1`. -/
def jsIndexOfSeq (pat : List Char) : List Char → Int
  | [] => if pat.isEmpty then 0 else -1
  | c :: rest =>
    if pat.isPrefixOf (c :: rest) then 0
    else
      let r := jsIndexOfSeq pat rest
      if r < 0 then -1 else r + 1

/-- JavaScript `text.split(/\n/, 1)[0]`: the prefix up to the first newline. -/
def firstLine (l : List Char) : List Char := l.takeWhile (fun c => !(c == '\n'))

/-- Membership in the JavaScript whitespace class `\s` (also the set trimmed
by `trim` / `trimEnd`). -/
def isJsWhitespace (c : Char) : Bool :=
  c == ' ' || c == '\t' || c == '\n' || c == '\r' ||
  c == '\x0b' || c == '\x0c' ||
  c == '\u00A0' || c == '\u1680' ||
  (decide ('\u2000' ≤ c) && decide (c ≤ '\u200A')) ||
  c == '\u2028' || c == '\u2029' || c == '\u202F' || c == '\u205F' ||
  c == '\u3000' || c == '\uFEFF'

/-- JavaScript `text.trimEnd()`. -/
def trimEnd (l : List Char) : List Char := (l.reverse.dropWhile isJsWhitespace).reverse

/-- JavaScript `text.trim()`. -/
def trim (l : List Char) : List Char := trimEnd (l.dropWhile isJsWhitespace)

/-- Character class of the restricted name grammar `/^[a-zA-Z_]+/` used for
label names, tag names and label alternates. -/
def isRestrictedIdentChar (c : Char) : Bool :=
  (decide ('a' ≤ c) && decide (c ≤ 'z')) ||
  (decide ('A' ≤ c) && decide (c ≤ 'Z')) || c == '_'

/-- Continuation character class of the general identifier grammar
`[a-zA-Z0-9_]`. -/
def isIdentContChar (c : Char) : Bool :=
  isRestrictedIdentChar c || (decide ('0' ≤ c) && decide (c ≤ '9'))

/-- JavaScript `s.match(/^[a-zA-Z_]+/)?.[0]`. -/
def matchRestricted (l : List Char) : Option (List Char) :=
  let m := l.takeWhile isRestrictedIdentChar
  if m = [] then none else some m

/-- JavaScript `s.match(/^[a-zA-Z_][a-zA-Z0-9_]*/)?.[0]`. -/
def matchIdentifier (l : List Char) : Option (List Char) :=
  match l with
  | [] => none
  | c :: rest =>
    if isRestrictedIdentChar c then some (c :: rest.takeWhile isIdentContChar) else none

/-- JavaScript `s.replace("\n", " ")`: only the first newline is replaced. -/
def replaceFirstNewline : List Char → List Char
  | [] => []
  | c :: rest => if c = '\n' then ' ' :: rest else c :: replaceFirstNewline rest

/-- Parameter values of a tag: `key=value` entries are strings, bare tokens
are boolean `true` entries. -/
inductive ParamValue where
  | boolean (b : Bool)
  | strVal (s : List Char)
deriving DecidableEq, Repr

/-- The `parameters` field of a tag node.  `obj` is a plain JavaScript
object of entries; `wrappedNode` models the stub value
`{node: u("parameters", parseParameters())}` built by `parseMultiLineTag`,
carrying the entries of the `parseParameters()` stub. -/
inductive Parameters where
  | obj (entries : List (List Char × ParamValue))
  | wrappedNode (entries : List (List Char × List Char))
deriving DecidableEq, Repr

/-- A unist-style syntax node.  JavaScript objects are heterogeneous; the
union of the fields the source ever sets is modelled with `Option` fields,
`none` meaning the field is absent (`undefined`).  `value` holds the third
argument of the `u(type, props, children)` builder when it is a string (for
`quoted-string` with an empty body the source passes `[u("undefined")]`
instead, modelled as `value := none`). -/
structure Node where
  type : List Char
  raw : List Char
  narrative : Option (List Char) := none
  emotion : Option (List Char) := none
  label : Option (List Char) := none
  extra : Option (List Char) := none
  tag : Option (List Char) := none
  value : Option (List Char) := none
  parameters : Option Parameters := none
deriving DecidableEq, Repr

/-- `ContextToBeParsed`: a node plus the index to continue parsing from. -/
structure Ctx where
  node : Node
  index : Int
deriving DecidableEq, Repr

/-- The `InvalidSyntax` sentinel class (`conditions.ts`): a hard failure. -/
def InvalidSyntax (text : List Char) (index : Int) : Node :=
  { type := str "invalid-syntax", raw := jsSliceFrom text index }

/-- The `FailingParsing` sentinel class (`conditions.ts`): a soft failure. -/
def FailingParsing (text : List Char) (index : Int) : Node :=
  { type := str "failing-parsing", raw := jsSliceFrom text index }

/-- The idiom `text.slice(prev).split(/\n/, 1)[0]` used by the line-level
parsers: the line of interest starting at `prev`. -/
def lineAt (text : List Char) (prev : Int) : List Char :=
  firstLine (jsSliceFrom text prev)

/-- `parseLineComment` from `parsers.ts`. -/
def parseLineComment (text : List Char) (prev : Int) : Ctx :=
  let line := lineAt text prev
  if ¬ ((str ";").isPrefixOf line = true) then ⟨FailingParsing text prev, prev⟩
  else
    ⟨{ type := str "line-comment", raw := jsSliceFrom line 1,
       value := some (jsSliceFrom line 1) },
      prev + (line.length : Int) + 1⟩

/-- `parseBlockComment` from `parsers.ts`. -/
def parseBlockComment (text : List Char) (index : Int) : Ctx :=
  let textOfInterest := jsSliceFrom text index
  if ¬ ((str "/*").isPrefixOf textOfInterest = true) then
    ⟨FailingParsing text index, index⟩
  else
    let indexOfClosingBlock := jsIndexOfSeq (str "*/") textOfInterest
    if indexOfClosingBlock < 0 then ⟨InvalidSyntax text index, index⟩
    else
      let textMatched := jsSlice textOfInterest 0 (indexOfClosingBlock + ((str "*/").length : Int))
      if ¬ (textMatched.contains '\n' = true) then ⟨InvalidSyntax text index, index⟩
      else
        ⟨{ type := str "block-comment", raw := textMatched,
           value := some (jsSlice textMatched ((str "/*").length : Int) (-((str "*/").length : Int))) },
          index + (textMatched.length : Int)⟩

/-- `parseNarratorDeclaration` from `parsers.ts`. -/
def parseNarratorDeclaration (text : List Char) (prev : Int) : Ctx :=
  let lineOfInterest := lineAt text prev
  if ¬ ((str "#").isPrefixOf lineOfInterest = true) then ⟨FailingParsing text prev, prev⟩
  else
    let curr := prev + (lineOfInterest.length : Int)
    let parts := (jsSliceFrom lineOfInterest 1).splitOn ':'
    let narrative := parts.headI
    let adjectives := parts.tail
    if narrative.length = 0 then ⟨InvalidSyntax text prev, curr + 1⟩
    else if adjectives.length > 1 then ⟨InvalidSyntax text prev, curr + 1⟩
    else if adjectives.length = 1 ∧ adjectives.headI.length = 0 then
      ⟨InvalidSyntax text prev, curr + 1⟩
    else
      let emotion := if adjectives.length = 1 then some adjectives.headI else none
      ⟨{ type := str "narrator-declaration", raw := jsSliceFrom lineOfInterest 1,
         narrative := some narrative, emotion := emotion, value := some narrative },
        curr + 1⟩

/-- `parseNarrative` from `parsers.ts`. -/
def parseNarrative (text : List Char) (index : Int) : Ctx :=
  let lineOfInterest := lineAt text index
  if trimEnd lineOfInterest ≠ str "#" then ⟨FailingParsing text index, index⟩
  else
    let nextIndex := index + (lineOfInterest.length : Int)
    ⟨{ type := str "narrative", raw := jsSlice text index nextIndex }, nextIndex + 1⟩

/-- Result of the inline closure computing the `extra` part of a label:
a string, `undefined`, or an `InvalidSyntax` node. -/
inductive ExtraResult where
  | strRes (s : List Char)
  | undefinedValue
  | invalid (n : Node)
deriving DecidableEq, Repr

/-- The inline closure inside `parseLabel` that parses the optional
`|alternate` suffix (called on the line of interest with the index just
after the label name). -/
def labelExtra (text : List Char) (index : Int) : ExtraResult :=
  let textOfInterest := jsSliceFrom text index
  if textOfInterest.length = 0 then .undefinedValue
  else if ¬ ((str "|").isPrefixOf textOfInterest = true) then
    .invalid (InvalidSyntax text (index + 1))
  else
    match matchRestricted (jsSliceFrom textOfInterest 1) with
    | some s => .strRes s
    | none => .undefinedValue

/-- `parseLabel` from `parsers.ts`. -/
def parseLabel (text : List Char) (index : Int) : Ctx :=
  let lineOfInterest := lineAt text index
  if ¬ ((str "*").isPrefixOf lineOfInterest = true) then ⟨FailingParsing text index, index⟩
  else if lineOfInterest.length = (str "*").length then
    ⟨InvalidSyntax text index, index + (lineOfInterest.length : Int) + 1⟩
  else
    match matchRestricted (jsSliceFrom lineOfInterest 1) with
    | none => ⟨InvalidSyntax text index, index + (lineOfInterest.length : Int) + 1⟩
    | some label =>
      match labelExtra lineOfInterest (1 + (label.length : Int)) with
      | .invalid n => ⟨n, index + (lineOfInterest.length : Int) + 1⟩
      | .strRes s =>
        ⟨{ type := str "label", raw := jsSliceFrom lineOfInterest 1,
           label := some label, extra := some s, value := some label },
          index + (lineOfInterest.length : Int) + 1⟩
      | .undefinedValue =>
        ⟨{ type := str "label", raw := jsSliceFrom lineOfInterest 1,
           label := some label, extra := none, value := some label },
          index + (lineOfInterest.length : Int) + 1⟩

/-- `parseSingleLineTag` from `parsers.ts`.  Note that the source checks
`text.startsWith("@")` on the whole text, not at `prev`, and leaves
parameter parsing as a TODO (`const parameters = {}`). -/
def parseSingleLineTag (text : List Char) (prev : Int) : Ctx :=
  if ¬ ((str "@").isPrefixOf text = true) then ⟨FailingParsing text prev, prev⟩
  else
    let lineOfInterest := lineAt text prev
    let curr := prev + (lineOfInterest.length : Int)
    if curr - prev = ((str "@").length : Int) then ⟨InvalidSyntax text curr, curr⟩
    else
      match matchRestricted (jsSliceFrom lineOfInterest 1) with
      | none => ⟨InvalidSyntax text curr, curr⟩
      | some tag =>
        ⟨{ type := str "single-line-tag", raw := jsSliceFrom lineOfInterest 1,
           tag := some tag, parameters := some (.obj []), value := some tag },
          curr + 1⟩

/-- `parseIdentifier` from `parsers.ts`. -/
def parseIdentifier (text : List Char) (prev : Int) : Ctx :=
  match matchIdentifier (jsSliceFrom text prev) with
  | none => ⟨InvalidSyntax text prev, prev⟩
  | some identifier =>
    let nextIndex := prev + (identifier.length : Int)
    ⟨{ type := str "identifier", raw := jsSlice text prev nextIndex,
       value := some identifier }, nextIndex⟩

/-- The `parseParameters` stub from `parsers.ts`: `() => { return {key: "value"} }`. -/
def parseParameters : List (List Char × List Char) := [(str "key", str "value")]

/-- The identifier scan loop of `parseMultiLineTag`:
`for (let i = nextIndex; i < lineOfInterest.length - 1; i++) { ({node, index: nextIndex} = parseIdentifier(...)); if (node.type === "identifier") break }`.
`steps` is the number of remaining iterations, `i` the loop variable, and
`state` the current values of the mutable `node` and `nextIndex` variables
(`node` starts out `undefined`). -/
def scanForTagStep (lineOfInterest : List Char) :
    Nat → Int → Option Node × Int → Option Node × Int
  | 0, _, state => state
  | steps + 1, i, _ =>
    let c := parseIdentifier lineOfInterest i
    if c.node.type = str "identifier" then (some c.node, c.index)
    else scanForTagStep lineOfInterest steps (i + 1) (some c.node, c.index)

/-- Entry to the scan loop: the loop runs while `i < lineOfInterest.length - 1`,
starting at the first non-`[ \t\u3000]` position, so its iteration count is
`(lineOfInterest.length - 1 - start).toNat` (a break may end it earlier). -/
def scanForTag (lineOfInterest : List Char) (start : Int) : Option Node × Int :=
  scanForTagStep lineOfInterest (((lineOfInterest.length : Int) - 1 - start).toNat)
    start (none, start)

/-- `parseMultiLineTag` from `parsers.ts`.  The source checks
`text.startsWith("[")` on the whole text, slices with
`text.slice(prev, indexOfClosingTag + 1)` (the second bound relative to
`prev` used as absolute), and returns the scan loop's `nextIndex` as the
continuation index. -/
def parseMultiLineTag (text : List Char) (prev : Int) : Ctx :=
  if ¬ ((str "[").isPrefixOf text = true) then ⟨FailingParsing text prev, prev⟩
  else
    let indexOfClosingTag := jsSearch (fun c => c == ']') (jsSliceFrom text prev)
    if indexOfClosingTag < 0 then ⟨FailingParsing text prev, prev⟩
    else
      let textOfInterest := jsSlice text prev (indexOfClosingTag + 1)
      let curr := prev + (textOfInterest.length : Int)
      let lineOfInterest := textOfInterest.map (fun c => if c = '\n' then ' ' else c)
      if ((jsSlice lineOfInterest 1 (-1)).filter (fun c => ¬ (isJsWhitespace c = true))).length = 0 then
        ⟨InvalidSyntax text prev, curr⟩
      else
        let nextIndex := jsSearch (fun c => !(c == ' ' || c == '\t' || c == '\u3000')) lineOfInterest
        let scanned := scanForTag lineOfInterest nextIndex
        match scanned.1.bind (fun n => n.value) with
        | none => ⟨InvalidSyntax text curr, curr⟩
        | some tag =>
          ⟨{ type := str "multi-line-tag",
             raw := replaceFirstNewline (jsSlice textOfInterest 1 (-1)),
             tag := some tag,
             parameters := some (.wrappedNode parseParameters),
             value := some tag }, scanned.2⟩

/-- `parseBareText` from `parsers.ts`. -/
def parseBareText (text : List Char) (prev : Int) : Ctx :=
  let curr := prev + (text.length : Int)
  if jsSlice text prev (prev + 1) = str "_" then
    ⟨{ type := str "bare-text", raw := jsSlice text (prev + 1) curr }, curr + 1⟩
  else
    ⟨{ type := str "bare-text", raw := trim (jsSlice text prev curr) }, curr + 1⟩

/-- `parseEmpty` from `parsers.ts`. -/
def parseEmpty (text : List Char) (index : Int) : Ctx :=
  if index ≠ 0 ∨ text.length ≠ 0 then ⟨FailingParsing text index, index⟩
  else ⟨{ type := str "empty", raw := [] }, 0⟩

/-- `parseQuotedString` from `parsers.ts`, modelling the JavaScript runtime:
`eatQuoteHeader` reads `text[index]`, which is `undefined` when the index is
out of range, and then calls `.search` on it — a thrown `TypeError`,
modelled by the result `none`.  All other paths return `some`. -/
def parseQuotedString (text : List Char) (curr : Int) : Option Ctx :=
  match (if 0 ≤ curr then text.get? curr.toNat else none) with
  | none => none
  | some mark =>
    if ¬ ((mark == '"' || mark == '\x27') = true) then some ⟨FailingParsing text curr, curr⟩
    else
      let indexToStartQuoting := curr + 1
      let offsetToEndQuote := jsSearch (fun c => c == mark) (jsSliceFrom text indexToStartQuoting)
      if offsetToEndQuote < 0 then some ⟨FailingParsing text curr, curr⟩
      else
        let body := jsSlice text indexToStartQuoting (indexToStartQuoting + offsetToEndQuote)
        let indexToEndQuoteBody := indexToStartQuoting + (offsetToEndQuote + 1)
        if body = [] then
          some ⟨{ type := str "quoted-string", raw := [mark, mark] }, indexToStartQuoting⟩
        else
          let indexToEndQuoting := indexToEndQuoteBody + 1
          some ⟨{ type := str "quoted-string", raw := mark :: (body ++ [mark]),
                  value := some body },
                 curr + (indexToEndQuoting - indexToStartQuoting)⟩

/-- `parseScenarioLine` from `parsers.ts`: the alternation over
label / narrative / narrator-declaration / single-line tag, falling back to
`InvalidSyntax(text, text.length)` — note that `parseBareText` is never
invoked. -/
def parseScenarioLine (text : List Char) (index : Int) : Ctx :=
  let c1 := parseLabel text index
  if c1.node.type = str "label" then c1 else
  let c2 := parseNarrative text index
  if c2.node.type = str "narrative" then c2 else
  let c3 := parseNarratorDeclaration text index
  if c3.node.type = str "narrator-declaration" then c3 else
  let c4 := parseSingleLineTag text index
  if c4.node.type = str "single-line-tag" then c4 else
  ⟨InvalidSyntax text (text.length : Int), (text.length : Int)⟩

/-- The `anyContext` closure inside `parseScenario`. -/
def anyContext (text : List Char) (index : Int) : Ctx :=
  let c1 := parseLineComment text index
  if c1.node.type = str "line-comment" then c1 else
  let c2 := parseBlockComment text index
  if c2.node.type = str "block-comment" then c2 else
  let c3 := parseMultiLineTag text index
  if c3.node.type = str "multi-line-tag" then c3 else
  parseScenarioLine text index

/-- The composer loop of `parseScenario`:
`for (let context = anyContext({text, index}); index < text.length; index = context.index) contexts.push(context)`.
The loop initialiser runs `anyContext` exactly once, so `context` is fixed
for the whole loop.  `fuel` bounds the number of iterations modelled;
`none` means the loop has not exited within `fuel` iterations. -/
def composeContexts (text : List Char) (context : Ctx) : Nat → Int → Option (List Ctx)
  | 0, index => if index < (text.length : Int) then none else some []
  | fuel + 1, index =>
    if index < (text.length : Int) then
      (composeContexts text context fuel context.index).map (fun rest => context :: rest)
    else some []

/-- The top-level node: either a leaf node or the `u("scenario", {raw}, contexts)`
root whose children are the pushed contexts. -/
inductive DocNode where
  | leaf (n : Node)
  | scenario (raw : List Char) (children : List Ctx)
deriving DecidableEq, Repr

/-- The `type` field read by `commands.ts` on the result node. -/
def DocNode.jsType : DocNode → List Char
  | .leaf n => n.type
  | .scenario _ _ => str "scenario"

/-- The context returned by `parseScenario`. -/
structure DocCtx where
  node : DocNode
  index : Int
deriving DecidableEq, Repr

/-- `parseScenario` from `parsers.ts`; `none` models non-termination of the
composer loop (no `fuel` makes it return). -/
def parseScenario (fuel : Nat) (text : List Char) (index : Int) : Option DocCtx :=
  if text.length = 0 then
    let c := parseEmpty text index
    some ⟨.leaf c.node, c.index⟩
  else
    let context := anyContext text index
    match composeContexts text context fuel index with
    | none => none
    | some contexts =>
      if contexts.length ≠ 0 then some ⟨.scenario text contexts, (text.length : Int)⟩
      else some ⟨.leaf (InvalidSyntax text (text.length : Int)), (text.length : Int)⟩

/-- Result of the public `parse` entry point of `commands.ts`:
either the returned node or a thrown `InvalidSyntaxError`. -/
inductive ParseResult where
  | ok (n : DocNode)
  | errorRaised
deriving DecidableEq, Repr

/-- `parse` from `commands.ts`; `none` models non-termination of
`parseScenario`. -/
def parse (fuel : Nat) (text : List Char) : Option ParseResult :=
  match parseScenario fuel text 0 with
  | none => none
  | some context =>
    if context.node.jsType = str "failing-parsing" then some .errorRaised
    else if context.node.jsType = str "invalid-syntax" then some .errorRaised
    else some (.ok context.node)

/-- Node types of the children of a scenario document (observer used in
statements). -/
def childTypes : DocNode → List (List Char)
  | .leaf _ => []
  | .scenario _ children => children.map (fun c => c.node.type)

/-- Concatenation of the `raw` fields of a document's child nodes, in order
(observer used in statements). -/
def concatChildRaw : DocNode → List Char
  | .leaf n => n.raw
  | .scenario _ children => (children.map (fun c => c.node.raw)).flatten

/-! ## Helper lemmas -/

theorem str_hash : str "#" = ['#'] := by decide

theorem str_star : str "*" = ['*'] := by decide

theorem isPrefixOf_single (c : Char) (l : List Char) :
    [c].isPrefixOf l = true ↔ l.head? = some c := by
  cases l with
  | nil => simp
  | cons b t =>
    rw [List.isPrefixOf_cons₂]
    simp only [List.isPrefixOf_nil_left, Bool.and_true, beq_iff_eq, List.head?_cons,
      Option.some.injEq]
    exact eq_comm

/-- If the loop's fixed context does not reach the end of the input, the
composer loop never terminates, whatever the fuel. -/
theorem composeContexts_none_of_no_progress (text : List Char) (context : Ctx)
    (h : context.index < (text.length : Int)) :
    ∀ fuel : Nat, ∀ index : Int, index < (text.length : Int) →
      composeContexts text context fuel index = none := by
  intro fuel
  induction fuel with
  | zero => intro i hi; simp [composeContexts, hi]
  | succ n ih =>
    intro i hi
    simp [composeContexts, hi, ih context.index h]

/-! ## Claims -/

/-- Claim C1 (code_bug): the spec says the document composer's loop
re-tries the alternatives at the advancing cursor and ends when the cursor
reaches end of input, so `parseScenario` terminates on every input.  The
code evaluates `anyContext` only once, in the `for`-loop initialiser; on
the two-line input `";a\n;b"` the single computed context ends at index 3,
short of the input's length 5, so the loop keeps pushing the same context
and never terminates: no amount of fuel makes the embedded loop return. -/
theorem parseScenario_diverges_on_multiline_input :
    ∀ fuel : Nat, parseScenario fuel (str ";a\n;b") 0 = none := by
  intro fuel
  have h := composeContexts_none_of_no_progress (str ";a\n;b")
      (anyContext (str ";a\n;b") 0) (by decide) fuel 0 (by decide)
  simp +decide [parseScenario, h]

/-- Claim C2 (code_bug): the spec says a HardFail anywhere aborts the whole
parse and no HardFail node appears in a returned document.  On input `"*"`
(an empty label, a hard failure) `parseScenarioLine` produces an
`invalid-syntax` sentinel, but the composer wraps it into a scenario
document whose type check in `commands.ts` only inspects the root, so the
public entry point returns a document containing the HardFail node instead
of raising `InvalidSyntaxError`. -/
theorem parse_star_returns_document_with_hardfail_inside :
    parse 2 (str "*") =
      some (.ok (.scenario (str "*") [⟨InvalidSyntax (str "*") 1, 1⟩])) ∧
    childTypes (.scenario (str "*") [⟨InvalidSyntax (str "*") 1, 1⟩]) =
      [str "invalid-syntax"] := by decide

/-- Claim C3 (code_bug): the spec says the concatenated `raw` fields of a
returned document's line nodes reconstruct the input exactly.  On input
`";a"` the parse succeeds but the single line-comment child carries
`raw = "a"` — the sigil `;` is dropped (`raw: line.slice(1)`), although the
function's own doc comment shows `raw: "; Line Comment"` — so the
concatenation is `"a"`, not `";a"`. -/
theorem parse_raw_concatenation_loses_sigil :
    (match parse 2 (str ";a") with
     | some (.ok d) => some (concatChildRaw d)
     | _ => none) = some (str "a") ∧ ¬ (str "a" = str ";a") := by decide

/-- Claim C4 (code_bug): the spec says bare text is the universal fallback
tried last by the composer and always succeeds.  The code's
`parseScenarioLine` never invokes `parseBareText` — its final fallback
returns an `invalid-syntax` sentinel (contradicting its own doc comment,
which shows a `bare-text` result for plain text) — so a plain line of text
yields an `invalid-syntax` node, which the composer then wraps into the
returned document. -/
theorem parseScenarioLine_never_reaches_bareText :
    (parseScenarioLine (str "A line of text.") 0).node.type = str "invalid-syntax" ∧
    (match parse 2 (str "A line of text.") with
     | some (.ok d) => childTypes d
     | _ => []) = [str "invalid-syntax"] ∧
    (parseBareText (str "A line of text.") 0).node.type = str "bare-text" := by decide

/-- Claim C5 (code_bug): the spec says `"@tag switch"` yields parameters
mapping `switch` to `true` and `"@tag key=value"` maps `key` to `"value"`
(and the repository's test suite expects exactly that).  The code leaves
parameter parsing as a TODO and always returns the empty object
`parameters = {}`.  The `"@"` hard-failure part of the claim does hold. -/
theorem parseSingleLineTag_parameters_stubbed :
    (parseSingleLineTag (str "@tag switch") 0).node.tag = some (str "tag") ∧
    (parseSingleLineTag (str "@tag switch") 0).node.parameters = some (.obj []) ∧
    (parseSingleLineTag (str "@tag key=value") 0).node.parameters = some (.obj []) ∧
    (parseSingleLineTag (str "@") 0).node.type = str "invalid-syntax" := by decide

/-- Claim C9 (code_bug): the spec's progress invariant says every
successful recognizer returns a cursor strictly greater than the cursor it
was given (`Empty` on empty input apart).  `parseMultiLineTag` returns the
identifier-scan position inside the folded bracket span without adding the
starting cursor (its own doc comment promises index 17 for
`"[multi_line_tag]"`), so at cursor 5 on the input below it succeeds with a
`multi-line-tag` node yet returns cursor 5 — no progress. -/
theorem parseMultiLineTag_succeeds_without_progress :
    (parseMultiLineTag (str "[1234abcde1234]") 5).node.type = str "multi-line-tag" ∧
    (parseMultiLineTag (str "[1234abcde1234]") 5).index = 5 := by decide

/-- Claim C10, counterexample: at cursor = length (`"abc"`, index 3) the
claim says `parseQuotedString` returns a soft-fail; the code reads
`text[3]`, which is `undefined`, and calls `.search` on it — a thrown
`TypeError`, modelled by `none`. -/
theorem parseQuotedString_throws_at_end_of_input :
    parseQuotedString (str "abc") 3 = none := by decide

/-- Claim C10 (corrected): `parseQuotedString` is total strictly before the
end of input — for every cursor in `[0, length)` it returns a result
(quoted-string node or soft-fail) without throwing. -/
theorem parseQuotedString_total_before_end (text : List Char) (curr : Int)
    (h0 : 0 ≤ curr) (h1 : curr < (text.length : Int)) :
    (parseQuotedString text curr).isSome = true := by
  have hne : ¬ text.get? curr.toNat = none := by
    rw [List.get?_eq_none]
    omega
  unfold parseQuotedString
  rw [if_pos h0]
  split
  · rename_i heq
    exact absurd heq hne
  · split
    · rfl
    · dsimp only
      split
      · rfl
      · split <;> rfl

/-- Witness for the corrected claim C10 at a concrete input. -/
theorem parseQuotedString_total_before_end_witness :
    (0 : Int) ≤ 0 ∧ (0 : Int) < (((str "\"ab\"").length : Nat) : Int) ∧
      (parseQuotedString (str "\"ab\"") 0).isSome = true :=
  ⟨by decide, by decide,
    parseQuotedString_total_before_end (str "\"ab\"") 0 (by decide) (by decide)⟩

theorem str_pipe : str "|" = ['|'] := by decide

/-- Claim C8, counterexample: on the label line `"*a|b1"` the claim demands
a HardFail (characters after the valid alternate `b`), but `parseLabel`
succeeds with `extra = "b"`, silently ignoring the trailing `"1"`. -/
theorem parseLabel_ignores_trailing_after_alternate :
    (parseLabel (str "*a|b1") 0).node =
      { type := str "label", raw := str "a|b1", label := some (str "a"),
        extra := some (str "b"), value := some (str "a") } := by decide

/-- Claim C8 (corrected): for a line starting with `*`, a bare `*`, an
invalid name, or trailing content not beginning with `|` are HardFails
(`invalid-syntax`), and a line that is exactly `*name` succeeds — as the
claim says.  However once a `|` follows the name the parser always
succeeds: the alternate is the longest letters/underscore prefix after the
`|` (absent when that prefix is empty) and any remaining characters —
including everything after a valid alternate — are silently ignored, not a
HardFail. -/
theorem parseLabel_spec (text : List Char) (index : Int)
    (line name rest : List Char)
    (hline : line = lineAt text index)
    (hsig : (str "*").isPrefixOf line = true)
    (hname : name = (jsSliceFrom line 1).takeWhile isRestrictedIdentChar)
    (hrest : rest = jsSliceFrom line (1 + (name.length : Int))) :
    (line.length = 1 → (parseLabel text index).node.type = str "invalid-syntax") ∧
    (line.length ≠ 1 → name = [] →
      (parseLabel text index).node.type = str "invalid-syntax") ∧
    (line.length ≠ 1 → name ≠ [] → rest = [] →
      (parseLabel text index).node =
        { type := str "label", raw := jsSliceFrom line 1, label := some name,
          extra := none, value := some name }) ∧
    (line.length ≠ 1 → name ≠ [] → rest ≠ [] → ¬ ((str "|").isPrefixOf rest = true) →
      (parseLabel text index).node.type = str "invalid-syntax") ∧
    (line.length ≠ 1 → name ≠ [] → (str "|").isPrefixOf rest = true →
      (parseLabel text index).node =
        { type := str "label", raw := jsSliceFrom line 1, label := some name,
          extra := matchRestricted (jsSliceFrom rest 1), value := some name }) := by
  subst hline hname hrest
  have hstar1 : (str "*").length = 1 := by decide
  refine ⟨?_, ?_, ?_, ?_, ?_⟩
  · intro hlen
    simp +decide [parseLabel, hsig, hstar1, hlen, InvalidSyntax]
  · intro hlen hn
    have hm : matchRestricted (jsSliceFrom (lineAt text index) 1) = none := by
      simp [matchRestricted, hn]
    simp +decide [parseLabel, hsig, hstar1, hlen, hm, InvalidSyntax]
  · intro hlen hn hr
    have hm : matchRestricted (jsSliceFrom (lineAt text index) 1) =
        some ((jsSliceFrom (lineAt text index) 1).takeWhile isRestrictedIdentChar) := by
      simp [matchRestricted, hn]
    have he : labelExtra (lineAt text index)
        (1 + ((((jsSliceFrom (lineAt text index) 1).takeWhile isRestrictedIdentChar).length : Nat) : Int)) =
        .undefinedValue := by
      simp [labelExtra, hr]
    simp +decide [parseLabel, hsig, hstar1, hlen, hm, he]
  · intro hlen hn hr hpipe
    have hm : matchRestricted (jsSliceFrom (lineAt text index) 1) =
        some ((jsSliceFrom (lineAt text index) 1).takeWhile isRestrictedIdentChar) := by
      simp [matchRestricted, hn]
    have he : labelExtra (lineAt text index)
        (1 + ((((jsSliceFrom (lineAt text index) 1).takeWhile isRestrictedIdentChar).length : Nat) : Int)) =
        .invalid (InvalidSyntax (lineAt text index)
          (1 + ((((jsSliceFrom (lineAt text index) 1).takeWhile isRestrictedIdentChar).length : Nat) : Int) + 1)) := by
      simp [labelExtra, List.length_eq_zero, hr, hpipe]
    simp +decide [parseLabel, hsig, hstar1, hlen, hm, he, InvalidSyntax]
  · intro hlen hn hpipe
    have hr : jsSliceFrom (lineAt text index)
        (1 + ((((jsSliceFrom (lineAt text index) 1).takeWhile isRestrictedIdentChar).length : Nat) : Int)) ≠ [] := by
      intro h
      rw [h, str_pipe] at hpipe
      simp [List.isPrefixOf] at hpipe
    have hm : matchRestricted (jsSliceFrom (lineAt text index) 1) =
        some ((jsSliceFrom (lineAt text index) 1).takeWhile isRestrictedIdentChar) := by
      simp [matchRestricted, hn]
    cases hm2 : matchRestricted (jsSliceFrom (jsSliceFrom (lineAt text index)
        (1 + ((((jsSliceFrom (lineAt text index) 1).takeWhile isRestrictedIdentChar).length : Nat) : Int))) 1) with
    | none =>
      have he : labelExtra (lineAt text index)
          (1 + ((((jsSliceFrom (lineAt text index) 1).takeWhile isRestrictedIdentChar).length : Nat) : Int)) =
          .undefinedValue := by
        simp [labelExtra, List.length_eq_zero, hr, hpipe, hm2]
      simp +decide [parseLabel, hsig, hstar1, hlen, hm, he, hm2]
    | some s =>
      have he : labelExtra (lineAt text index)
          (1 + ((((jsSliceFrom (lineAt text index) 1).takeWhile isRestrictedIdentChar).length : Nat) : Int)) =
          .strRes s := by
        simp [labelExtra, List.length_eq_zero, hr, hpipe, hm2]
      simp +decide [parseLabel, hsig, hstar1, hlen, hm, he, hm2]

theorem jsIndexOfSeq_matchesAt (pat l : List Char) (k : Nat)
    (h : jsIndexOfSeq pat l = (k : Int)) : pat.isPrefixOf (l.drop k) = true := by
  induction l generalizing k with
  | nil =>
    unfold jsIndexOfSeq at h
    by_cases hp : pat.isEmpty = true
    · rw [if_pos hp] at h
      have hk : k = 0 := by omega
      subst hk
      rw [List.isEmpty_iff] at hp
      subst hp
      simp
    · rw [if_neg hp] at h
      omega
  | cons c rest ih =>
    unfold jsIndexOfSeq at h
    by_cases hp : pat.isPrefixOf (c :: rest) = true
    · rw [if_pos hp] at h
      have hk : k = 0 := by omega
      subst hk
      simpa using hp
    · rw [if_neg hp] at h
      dsimp only at h
      by_cases hr : jsIndexOfSeq pat rest < 0
      · rw [if_pos hr] at h
        omega
      · rw [if_neg hr] at h
        cases k with
        | zero => omega
        | succ n =>
          have hn : jsIndexOfSeq pat rest = (n : Int) := by omega
          simpa using ih n hn

theorem jsIndexOfSeq_add_le (pat l : List Char) (k : Nat)
    (hne : pat ≠ []) (h : jsIndexOfSeq pat l = (k : Int)) :
    k + pat.length ≤ l.length := by
  have hp := jsIndexOfSeq_matchesAt pat l k h
  rw [ List.isPrefixOf_iff_prefix] at hp
  have hlen := hp.length_le
  rw [List.length_drop] at hlen
  have hk : k < l.length := by
    by_contra hcon
    push_neg at hcon
    have hp0 : pat.length = 0 := by omega
    exact hne (List.length_eq_zero.mp hp0)
  omega

theorem jsIndex_cast_le (len k : Nat) (h : k ≤ len) : jsIndex len (k : Int) = k := by
  unfold jsIndex
  rw [if_neg (by omega)]
  omega

theorem jsIndex_neg2 (len : Nat) (h : 2 ≤ len) : jsIndex len (-2) = len - 2 := by
  unfold jsIndex
  rw [if_pos (by omega)]
  omega

theorem jsIndex_two (len : Nat) (h : 2 ≤ len) : jsIndex len 2 = 2 := by
  unfold jsIndex
  rw [if_neg (by omega)]
  omega

theorem jsSlice_take (toi : List Char) (m : Nat) (hm : m ≤ toi.length) :
    jsSlice toi 0 (m : Int) = toi.take m := by
  unfold jsSlice
  rw [jsIndex_cast_le toi.length m hm]
  have h0 : jsIndex toi.length 0 = 0 := by
    unfold jsIndex
    rw [if_neg (by omega)]
    omega
  rw [h0]
  simp

/-- The `textMatched.slice(2, -2)` of a successful block comment is exactly
the text strictly between the opening delimiter and the first `*/`. -/
theorem jsSlice_body (toi : List Char) (k : Nat) (hk : k + 2 ≤ toi.length) :
    jsSlice (jsSlice toi 0 ((k : Int) + 2)) 2 (-2) = jsSlice toi 2 (k : Int) := by
  have hcast : ((k : Int) + 2) = ((k + 2 : Nat) : Int) := by push_cast; ring
  have h1 : jsSlice toi 0 ((k : Int) + 2) = toi.take (k + 2) := by
    rw [hcast, jsSlice_take toi (k + 2) hk]
  rw [h1]
  have hlen : (toi.take (k + 2)).length = k + 2 := by
    rw [List.length_take]
    omega
  unfold jsSlice
  rw [hlen, jsIndex_neg2 (k + 2) (by omega), jsIndex_two (k + 2) (by omega),
    jsIndex_cast_le toi.length k (by omega), jsIndex_two toi.length (by omega)]
  have hsub : k + 2 - 2 = k := by omega
  rw [hsub, List.take_take]
  have hmin : min k (k + 2) = k := by omega
  rw [hmin]

/-- Claim C7 (confirmed): `parseBlockComment` soft-fails (cursor unchanged)
unless the span at the cursor starts with `/*`; hard-fails when no `*/`
follows; hard-fails when the matched span including both delimiters
contains no line break; and on success the node's body (`value`) is exactly
the text strictly between the `/*` and the first `*/`, the `raw` is the
full matched span, and the cursor advances past it. -/
theorem blockComment_spec (text : List Char) (index : Int)
    (toi : List Char) (htoi : toi = jsSliceFrom text index) :
    ((¬ ((str "/*").isPrefixOf toi = true)) →
      parseBlockComment text index = ⟨FailingParsing text index, index⟩) ∧
    ((str "/*").isPrefixOf toi = true → jsIndexOfSeq (str "*/") toi = -1 →
      parseBlockComment text index = ⟨InvalidSyntax text index, index⟩) ∧
    (∀ k : Nat, (str "/*").isPrefixOf toi = true → jsIndexOfSeq (str "*/") toi = (k : Int) →
      ((¬ ((jsSlice toi 0 ((k : Int) + 2)).contains '\n' = true)) →
        parseBlockComment text index = ⟨InvalidSyntax text index, index⟩) ∧
      ((jsSlice toi 0 ((k : Int) + 2)).contains '\n' = true →
        parseBlockComment text index =
          ⟨{ type := str "block-comment", raw := jsSlice toi 0 ((k : Int) + 2),
             value := some (jsSlice toi 2 (k : Int)) },
            index + ((jsSlice toi 0 ((k : Int) + 2)).length : Int)⟩)) := by
  subst htoi
  have hl1 : (((str "/*").length : Nat) : Int) = 2 := by decide
  have hl2 : (((str "*/").length : Nat) : Int) = 2 := by decide
  refine ⟨?_, ?_, ?_⟩
  · intro h
    simp [parseBlockComment, h]
  · intro h1 h2
    simp +decide [parseBlockComment, h1, h2]
  · intro k h1 h2
    have hknn : ¬ ((k : Int) < 0) := by omega
    have hpatlen : (str "*/").length = 2 := by decide
    have hk2 : k + 2 ≤ (jsSliceFrom text index).length := by
      have := jsIndexOfSeq_add_le (str "*/") (jsSliceFrom text index) k (by decide) h2
      omega
    constructor
    · intro h3
      have h3m : ¬ ('\n' ∈ jsSlice (jsSliceFrom text index) 0 ((k : Int) + 2)) := by
        simpa using h3
      simp +decide [parseBlockComment, h1, h2, hl2, hknn, h3m]
    · intro h3
      have h3m : '\n' ∈ jsSlice (jsSliceFrom text index) 0 ((k : Int) + 2) := by
        simpa using h3
      have hbody := jsSlice_body (jsSliceFrom text index) k hk2
      simp +decide [parseBlockComment, h1, h2, hl1, hl2, hknn, h3m, hbody]

/-- Witness for the confirmed claim C7 at a concrete input. -/
theorem blockComment_spec_witness :
    (str "/*").isPrefixOf (jsSliceFrom (str "/*\nB\n*/") 0) = true ∧
    jsIndexOfSeq (str "*/") (jsSliceFrom (str "/*\nB\n*/") 0) = ((5 : Nat) : Int) ∧
    (jsSlice (jsSliceFrom (str "/*\nB\n*/") 0) 0 (((5 : Nat) : Int) + 2)).contains '\n' = true ∧
    parseBlockComment (str "/*\nB\n*/") 0 =
      ⟨{ type := str "block-comment", raw := str "/*\nB\n*/",
         value := some (str "\nB\n") }, 7⟩ := by
  refine ⟨by decide, by decide, by decide, ?_⟩
  have h := ((blockComment_spec (str "/*\nB\n*/") 0 _ rfl).2.2 5
      (by decide) (by decide)).2 (by decide)
  exact h.trans (by decide)

/-- On a line that does not start with `*`, `parseLabel` soft-fails. -/
theorem parseLabel_softfail (text : List Char) (index : Int)
    (h : ¬ ((str "*").isPrefixOf (lineAt text index) = true)) :
    parseLabel text index = ⟨FailingParsing text index, index⟩ := by
  simp [parseLabel, h]

/-- Claim C6 (confirmed): for a line starting with `#`, a line that is
exactly `#` up to trailing whitespace parses as a `narrative` node (the
narrative rule is tried before the narrator declaration in
`parseScenarioLine`); otherwise `parseNarratorDeclaration` splits the
remainder on `:` and yields a `narrator-declaration` without emotion for
zero colons, a `narrator-declaration` with emotion for exactly one colon
with non-empty name and emotion, and an `invalid-syntax` HardFail for an
empty name, an empty emotion, or more than one colon. -/
theorem narratorDeclaration_spec (text : List Char) (index : Int)
    (line : List Char) (parts : List (List Char))
    (hline : line = lineAt text index)
    (hsig : (str "#").isPrefixOf line = true)
    (hparts : parts = (jsSliceFrom line 1).splitOn ':') :
    (trimEnd line = str "#" →
      (parseScenarioLine text index).node.type = str "narrative") ∧
    (trimEnd line ≠ str "#" →
      (parts.length = 1 → parts.headI ≠ [] →
        (parseNarratorDeclaration text index).node =
          { type := str "narrator-declaration", raw := jsSliceFrom line 1,
            narrative := some parts.headI, emotion := none,
            value := some parts.headI }) ∧
      (parts.length = 2 → parts.headI ≠ [] → parts.tail.headI ≠ [] →
        (parseNarratorDeclaration text index).node =
          { type := str "narrator-declaration", raw := jsSliceFrom line 1,
            narrative := some parts.headI, emotion := some parts.tail.headI,
            value := some parts.headI }) ∧
      ((parts.headI = [] ∨ 2 < parts.length ∨ (parts.length = 2 ∧ parts.tail.headI = [])) →
        (parseNarratorDeclaration text index).node.type = str "invalid-syntax")) := by
  subst hline hparts
  constructor
  · intro htrim
    have hhead : (lineAt text index).head? = some '#' := by
      rw [str_hash] at hsig
      exact (isPrefixOf_single '#' _).mp hsig
    have hstar : ¬ ((str "*").isPrefixOf (lineAt text index) = true) := by
      rw [str_star, isPrefixOf_single, hhead]
      simp
    simp +decide [parseScenarioLine, parseLabel_softfail text index hstar, FailingParsing,
      parseNarrative, htrim]
  · intro htrim
    refine ⟨?_, ?_, ?_⟩
    · intro hp1 hne
      have htl : ((jsSliceFrom (lineAt text index) 1).splitOn ':').tail.length = 0 := by
        rw [List.length_tail, hp1]
      have hhl : ¬ (((jsSliceFrom (lineAt text index) 1).splitOn ':').headI.length = 0) := by
        simpa [List.length_eq_zero] using hne
      simp +decide [parseNarratorDeclaration, hsig, htl, hhl]
    · intro hp2 hn1 hn2
      have htl : ((jsSliceFrom (lineAt text index) 1).splitOn ':').tail.length = 1 := by
        rw [List.length_tail, hp2]
      have hhl : ¬ (((jsSliceFrom (lineAt text index) 1).splitOn ':').headI.length = 0) := by
        simpa [List.length_eq_zero] using hn1
      have htlh : ¬ (((jsSliceFrom (lineAt text index) 1).splitOn ':').tail.headI.length = 0) := by
        simpa [List.length_eq_zero] using hn2
      simp +decide [parseNarratorDeclaration, hsig, htl, hhl, htlh]
    · intro hbad
      rcases hbad with hb | hb | ⟨hb1, hb2⟩
      · have hh : ((jsSliceFrom (lineAt text index) 1).splitOn ':').headI.length = 0 := by
          simp [hb]
        simp +decide [parseNarratorDeclaration, hsig, hh, InvalidSyntax]
      · by_cases hh : ((jsSliceFrom (lineAt text index) 1).splitOn ':').headI.length = 0
        · simp +decide [parseNarratorDeclaration, hsig, hh, InvalidSyntax]
        · have h1 : 1 < ((jsSliceFrom (lineAt text index) 1).splitOn ':').length - 1 := by
            omega
          simp +decide [parseNarratorDeclaration, hsig, hh, h1, InvalidSyntax]
      · by_cases hh : ((jsSliceFrom (lineAt text index) 1).splitOn ':').headI.length = 0
        · simp +decide [parseNarratorDeclaration, hsig, hh, InvalidSyntax]
        · simp +decide [parseNarratorDeclaration, hsig, hh, hb1, hb2, InvalidSyntax]

/-- Witness for the confirmed claim C6 at concrete inputs. -/
theorem narratorDeclaration_spec_witness :
    (str "#").isPrefixOf (lineAt (str "#Jane:Angry") 0) = true ∧
    (parseNarratorDeclaration (str "#Jane:Angry") 0).node =
      { type := str "narrator-declaration", raw := str "Jane:Angry",
        narrative := some (str "Jane"), emotion := some (str "Angry"),
        value := some (str "Jane") } := by
  refine ⟨by decide, ?_⟩
  have h := (narratorDeclaration_spec (str "#Jane:Angry") 0 _ _ rfl (by decide) rfl).2
      (by decide)
  have h2 := h.2.1 (by decide) (by decide) (by decide)
  exact h2.trans (by decide)

/-- Witness for the corrected claim C8 at a concrete input. -/
theorem parseLabel_spec_witness :
    (str "*").isPrefixOf (lineAt (str "*scene|extra") 0) = true ∧
    (parseLabel (str "*scene|extra") 0).node =
      { type := str "label", raw := str "scene|extra", label := some (str "scene"),
        extra := some (str "extra"), value := some (str "scene") } := by
  refine ⟨by decide, ?_⟩
  have h := (parseLabel_spec (str "*scene|extra") 0 _ _ _ rfl (by decide) rfl rfl).2.2.2.2
      (by decide) (by decide) (by decide)
  exact h.trans (by decide)

end Yatp
